import Mathlib

/-!
Verification of the theft-detection repository's detection-event synthesis and
aggregation logic.

This file is a shallow embedding of the core logic of the repository
(`src/app/api/alerts/route.ts`, `src/app/api/analyze-video/route.ts`,
`src/app/api/dashboard-stats/route.ts`, `src/app/api/detect-frame/route.ts`,
`src/app/video-upload/page.tsx`), together with theorems settling the
specification's claims about it.

JavaScript numbers are modelled as rationals (`ℚ`).  The `NaN` produced by the
`0/0` division in the average-confidence computation is modelled as `none` of
an `Option` type: every `<` / `>` comparison against `NaN` is `false` in
JavaScript, which is exactly how the `none` branch of the threat classifier
below behaves.
-/

namespace TheftDetection

/-- The threat-level string union `"Low" | "Medium" | "High"` of the source. -/
inductive Threat where
  | Low : Threat
  | Medium : Threat
  | High : Threat
deriving DecidableEq, Repr

/-- The `boundingBox` object of a `DetectionEvent` (four pixel coordinates). -/
structure BoundingBox where
  x : ℤ
  y : ℤ
  width : ℤ
  height : ℤ
deriving DecidableEq, Repr

/-- The `DetectionEvent` interface of `alerts/route.ts` and
`analyze-video/route.ts`. -/
structure DetectionEvent where
  timestamp : ℚ
  confidence : ℚ
  detected : Bool
  description : String
  boundingBox : Option BoundingBox
deriving DecidableEq, Repr

/-- One element of `summary.timeRanges`.  The source field `end` is a Lean
keyword, so it is embedded as `stop`. -/
structure TimeRange where
  start : ℚ
  stop : ℚ
  severity : Threat
deriving DecidableEq, Repr

/-- Comparison relation of
`detections.sort((a, b) => a.timestamp - b.timestamp)`. -/
def tsLe (a b : DetectionEvent) : Prop :=
  a.timestamp ≤ b.timestamp

instance : DecidableRel tsLe := fun a b =>
  inferInstanceAs (Decidable (a.timestamp ≤ b.timestamp))

instance : IsTotal DetectionEvent tsLe :=
  ⟨fun a b => le_total a.timestamp b.timestamp⟩

instance : IsTrans DetectionEvent tsLe :=
  ⟨fun _ _ _ hab hbc => le_trans hab hbc⟩

/-- Embeds `detections.sort((a, b) => a.timestamp - b.timestamp)`
(`alerts/route.ts` line 265).  `Array.prototype.sort` is a stable sort by the
comparator; `List.insertionSort` with a non-strict `≤` is stable. -/
def sortByTimestamp (l : List DetectionEvent) : List DetectionEvent :=
  List.insertionSort tsLe l

/-- Embeds
`Math.floor(detections.reduce((sum, d) => sum + d.confidence, 0) / detections.length)`
(`alerts/route.ts` line 267).  On an empty list the source divides `0 / 0`,
producing `NaN`; `none` models that `NaN`.  There is no empty-case branch in
the source. -/
def averageConfidence (l : List DetectionEvent) : Option ℤ :=
  match l with
  | [] => none
  | _ => some ⌊(l.map DetectionEvent.confidence).sum / (l.length : ℚ)⌋

/-- Embeds the threat classification of `alerts/route.ts` lines 269-271:
`let overallThreatLevel = "Low"; if (avg > 85) "High"; else if (avg > 70) "Medium"`.
A `NaN` average (`none`) fails both comparisons, leaving `"Low"`. -/
def overallThreatLevel (avg : Option ℤ) : Threat :=
  match avg with
  | none => Threat.Low
  | some a =>
    if a > 85 then Threat.High else if a > 70 then Threat.Medium else Threat.Low

/-- Embeds `detections.filter((d) => d.confidence > 80).length`
(`alerts/route.ts` line 273, `analyze-video/route.ts` line 90). -/
def highConfidenceDetections (l : List DetectionEvent) : ℕ :=
  (l.filter (fun d => decide (80 < d.confidence))).length

/-- The range pushed when the clustering starts a new incident
(`alerts/route.ts` lines 280-284): `start = timestamp`,
`end = timestamp + 10`, severity from the triggering event's confidence
only. -/
def newRange (d : DetectionEvent) : TimeRange :=
  { start := d.timestamp
    stop := d.timestamp + 10
    severity :=
      if d.confidence > 85 then Threat.High
      else if d.confidence > 70 then Threat.Medium
      else Threat.Low }

/-- Embeds the body of the `reduce` clustering pass (`alerts/route.ts` lines
276-292, duplicated verbatim at `analyze-video/route.ts` lines 93-109).
`cur` is the open last range of the accumulator
(`ranges[ranges.length - 1]`), `prev` the previous event's timestamp
(`detections[index - 1].timestamp`).  A gap of more than 30 seconds pushes a
fresh range; otherwise the open range's `end` is set to `timestamp + 10` and
its severity is left untouched. -/
def timeRangesGo (prev : ℚ) (cur : TimeRange) :
    List DetectionEvent → List TimeRange
  | [] => [cur]
  | d :: rest =>
    if d.timestamp - prev > 30 then
      cur :: timeRangesGo d.timestamp (newRange d) rest
    else
      timeRangesGo d.timestamp { cur with stop := d.timestamp + 10 } rest

/-- The full clustering pass: the first event always starts a new incident
(`index === 0` in the source). -/
def timeRanges : List DetectionEvent → List TimeRange
  | [] => []
  | d :: rest => timeRangesGo d.timestamp (newRange d) rest

/-- The aggregation fields computed by `simulateVideoAnalysis`
(`alerts/route.ts` lines 264-306).  `totalFrames`, `processedFrames` and
`processingTime` are produced by the synthesizer part (below) and are mere
pass-through values for the aggregation, so they are kept out of this
record. -/
structure AggregationResult where
  detections : List DetectionEvent
  overallThreatLevel : Threat
  averageConfidence : Option ℤ
  totalDetections : ℕ
  highConfidenceDetections : ℕ
  timeRanges : List TimeRange
deriving DecidableEq, Repr

/-- The aggregation body of `simulateVideoAnalysis` (`alerts/route.ts` lines
264-306): sort ascending by timestamp, then compute the average confidence,
the overall threat level, the high-confidence count and the clustered time
ranges from the sorted list. -/
def simulateAggregate (l : List DetectionEvent) : AggregationResult :=
  let sorted := sortByTimestamp l
  let avg := averageConfidence sorted
  { detections := sorted
    overallThreatLevel := overallThreatLevel avg
    averageConfidence := avg
    totalDetections := sorted.length
    highConfidenceDetections := highConfidenceDetections sorted
    timeRanges := timeRanges sorted }

/-- The summary computation of the `analyze-video` POST handler
(`analyze-video/route.ts` lines 89-109 and 122-126): filter to
`detected = true`, count high-confidence events, and cluster — without any
sort.  The triple is
`(totalDetections, highConfidenceDetections, timeRanges)`;
`averageConfidence` and `overallThreatLevel` are pass-through values from the
upstream response there, not computed from the events. -/
def analyzeVideoSummary (detections : List DetectionEvent) :
    ℕ × ℕ × List TimeRange :=
  let validDetections := detections.filter (fun d => d.detected)
  (validDetections.length,
    highConfidenceDetections validDetections,
    timeRanges validDetections)

/-- The fixed catalog of eight behavior strings (`alerts/route.ts` lines
239-248). -/
def descriptions : List String :=
  ["Suspicious behavior detected - person concealing item",
   "Potential theft activity - item removal without payment",
   "Unusual movement pattern detected",
   "Person lingering in restricted area",
   "Concealment behavior observed",
   "Suspicious interaction with merchandise",
   "Abnormal shopping pattern detected",
   "Potential shoplifting behavior"]

/-- One synthesized detection event (`alerts/route.ts` lines 235-262) with the
random source injected: `rand n` is the n-th `Math.random()` draw, each in
`[0, 1)`.  `base` is the index of the event's first draw; the seven draws per
event follow the source's evaluation order: timestamp, confidence,
description index, x, y, width, height. -/
def mkDetection (rand : ℕ → ℚ) (base : ℕ) : DetectionEvent :=
  { timestamp := rand base * 300
    confidence := ((⌊rand (base + 1) * 40⌋ + 60 : ℤ) : ℚ)
    detected := true
    description :=
      descriptions.getD (⌊rand (base + 2) * (descriptions.length : ℚ)⌋).toNat ""
    boundingBox := some
      { x := ⌊rand (base + 3) * 800⌋
        y := ⌊rand (base + 4) * 600⌋
        width := ⌊rand (base + 5) * 200⌋ + 100
        height := ⌊rand (base + 6) * 300⌋ + 150 } }

/-- The synthesizer fields of `simulateVideoAnalysis` that are not produced by
the aggregation (`alerts/route.ts` lines 228-233 and 294-300). -/
structure SynthesisResult where
  totalFrames : ℤ
  processedFrames : ℤ
  processingTime : ℤ
  detections : List DetectionEvent
deriving DecidableEq, Repr

/-- The generation part of `simulateVideoAnalysis` (`alerts/route.ts` lines
227-262) with the random source injected.  Draw order follows the source:
`totalFrames` (draw 0), `processingTime` (draw 1), `numDetections` (draw 2),
then seven draws per event starting at index 3.  The returned object sets
`processedFrames = totalFrames` (line 296).  The aggregation applied
afterwards to `detections` is `simulateAggregate`. -/
def simulateVideoAnalysis (rand : ℕ → ℚ) : SynthesisResult :=
  let totalFrames := ⌊rand 0 * 3000⌋ + 1000
  let processingTime := ⌊rand 1 * 60⌋ + 30
  let numDetections := (⌊rand 2 * 8⌋ + 2).toNat
  { totalFrames := totalFrames
    processedFrames := totalFrames
    processingTime := processingTime
    detections :=
      (List.range numDetections).map (fun i => mkDetection rand (3 + 7 * i)) }

/-- The all-zero random source used to instantiate the synthesizer theorem. -/
def zeroDraws : ℕ → ℚ := fun _ => 0

/-- Abstract syntax of the JSON values produced by the route handlers and by
`JSON.stringify` in the export path. -/
inductive Json where
  | null : Json
  | bool (b : Bool) : Json
  | num (q : ℚ) : Json
  | str (s : String) : Json
  | arr (xs : List Json) : Json
  | obj (fields : List (String × Json)) : Json
deriving Repr

/-- Key lookup in a JSON object's field list. -/
def jsonLookup : List (String × Json) → String → Option Json
  | [], _ => none
  | (k, v) :: rest, key => if k = key then some v else jsonLookup rest key

/-- Key lookup on a JSON value (`none` on non-objects and missing keys). -/
def Json.lookup : Json → String → Option Json
  | Json.obj fields, key => jsonLookup fields key
  | _, _ => none

/-- The response of the `dashboard-stats` GET handler when the upstream fetch
fails (`dashboard-stats/route.ts` lines 35-57): HTTP 503 with the zeroed
fallback stats and an `error` field.  `msg` is the caught error's message. -/
def dashboardStatsOfflineResponse (msg : String) : ℕ × Json :=
  (503, Json.obj
    [("totalCameras", Json.num 4), ("activeCameras", Json.num 0),
     ("alertsToday", Json.num 0), ("detectionAccuracy", Json.num 0),
     ("totalAlerts", Json.num 0), ("activeAlerts", Json.num 0),
     ("modelLoaded", Json.bool false), ("systemStatus", Json.str "offline"),
     ("error", Json.str ("Backend unavailable: " ++ msg))])

/-- The response of the `alerts` GET handler when the upstream fetch fails
(`alerts/route.ts` lines 77-90): HTTP 500 with an `error` field, an empty
alert list and zeroed stats. -/
def alertsGetOfflineResponse (msg : String) : ℕ × Json :=
  (500, Json.obj
    [("error", Json.str ("Failed to fetch alerts from backend: " ++ msg)),
     ("alerts", Json.arr []),
     ("stats", Json.obj
       [("total", Json.num 0), ("active", Json.num 0),
        ("acknowledged", Json.num 0), ("resolved", Json.num 0)]),
     ("total", Json.num 0), ("offset", Json.num 0), ("limit", Json.num 50)])

/-- The response of the `analyze-video` POST handler when the upstream fetch
fails (`analyze-video/route.ts` lines 131-139): HTTP 500 with only an `error`
message — no results, detections, alerts or stats payload of any kind. -/
def analyzeVideoOfflineResponse : ℕ × Json :=
  (500, Json.obj
    [("error", Json.str
      "Failed to connect to AI analysis backend. Please ensure the Flask server is running.")])

/-- The response of the `analyze-video` POST handler to a request without a
video file (`analyze-video/route.ts` lines 54-56). -/
def analyzeVideoBadRequestResponse : ℕ × Json :=
  (400, Json.obj [("error", Json.str "No video file provided")])

/-- The response of the `detect-frame` POST handler when the upstream fetch
fails with a non-abort error (`detect-frame/route.ts` catch block): HTTP 500
with an `error` message and a `details` string — no data payload. -/
def detectFrameOfflineResponse (msg : String) : ℕ × Json :=
  (500, Json.obj
    [("error", Json.str ("Failed to connect to AI detection backend: " ++ msg)),
     ("details", Json.str "Please ensure the Flask server is running and accessible.")])

/-- The response of the `detect-frame` POST handler to a request without image
data (`detect-frame/route.ts`). -/
def detectFrameBadRequestResponse : ℕ × Json :=
  (400, Json.obj [("error", Json.str "No image data provided")])

/-- The fallback-payload property asserted by the spec for offline responses
(follows the spec's words: "a fixed fallback payload (zeroed stats, empty
alert list, or synthesized detections)"): the body carries an alert list, an
analysis-results object, synthesized detections, or the zeroed camera
stats. -/
def hasFallbackPayload (body : Json) : Prop :=
  (body.lookup "alerts").isSome = true ∨ (body.lookup "results").isSome = true
    ∨ (body.lookup "detections").isSome = true
    ∨ (body.lookup "totalCameras").isSome = true

/-- The `AnalysisResult` interface of `video-upload/page.tsx` (lines 13-18):
the per-event shape kept by the upload page, without bounding boxes. -/
structure AnalysisResult where
  timestamp : ℚ
  confidence : ℚ
  detected : Bool
  description : String
deriving DecidableEq, Repr

/-- The `VideoAnalysis` interface of `video-upload/page.tsx` (lines 20-27):
the summary shape serialized by the "Export Results" feature. -/
structure VideoAnalysis where
  totalFrames : ℚ
  processedFrames : ℚ
  detections : List AnalysisResult
  overallThreatLevel : Threat
  averageConfidence : ℚ
  processingTime : ℚ
deriving DecidableEq, Repr

/-- The JSON string of a threat level, as it appears in the wire format. -/
def Threat.toStr : Threat → String
  | Threat.Low => "Low"
  | Threat.Medium => "Medium"
  | Threat.High => "High"

/-- Modelled from the spec: parsing a threat-level string back, the inverse
direction of the export path, which the repository does not contain. -/
def threatOfStr (s : String) : Option Threat :=
  if s = "Low" then some Threat.Low
  else if s = "Medium" then some Threat.Medium
  else if s = "High" then some Threat.High
  else none

/-- `JSON.stringify` of one detection event of the page's `VideoAnalysis`
value: the four fields of `AnalysisResult` in declaration order. -/
def AnalysisResult.toJson (d : AnalysisResult) : Json :=
  Json.obj
    [("timestamp", Json.num d.timestamp), ("confidence", Json.num d.confidence),
     ("detected", Json.bool d.detected), ("description", Json.str d.description)]

/-- Modelled from the spec: `JSON.parse` of one detection event, the import
direction of the export/import path.  The repository only contains the export
half (`exportResults` in `video-upload/page.tsx`); deserialization is the
JSON-standard inverse. -/
def AnalysisResult.fromJson (j : Json) : Option AnalysisResult :=
  match j.lookup "timestamp", j.lookup "confidence",
      j.lookup "detected", j.lookup "description" with
  | some (Json.num ts), some (Json.num c), some (Json.bool det),
      some (Json.str desc) => some ⟨ts, c, det, desc⟩
  | _, _, _, _ => none

/-- Modelled from the spec: parsing the `detections` array element-wise, in
order, failing if any element fails. -/
def detectionsFromJson : List Json → Option (List AnalysisResult)
  | [] => some []
  | j :: rest =>
    match AnalysisResult.fromJson j, detectionsFromJson rest with
    | some d, some ds => some (d :: ds)
    | _, _ => none

/-- `JSON.stringify` of the page's `VideoAnalysis` value: the six fields in
declaration order, the detections array in list order. -/
def VideoAnalysis.toJson (v : VideoAnalysis) : Json :=
  Json.obj
    [("totalFrames", Json.num v.totalFrames),
     ("processedFrames", Json.num v.processedFrames),
     ("detections", Json.arr (v.detections.map AnalysisResult.toJson)),
     ("overallThreatLevel", Json.str v.overallThreatLevel.toStr),
     ("averageConfidence", Json.num v.averageConfidence),
     ("processingTime", Json.num v.processingTime)]

/-- Modelled from the spec: `JSON.parse` of a serialized `VideoAnalysis`. -/
def VideoAnalysis.fromJson (j : Json) : Option VideoAnalysis :=
  match j.lookup "totalFrames", j.lookup "processedFrames",
      j.lookup "detections", j.lookup "overallThreatLevel",
      j.lookup "averageConfidence", j.lookup "processingTime" with
  | some (Json.num tf), some (Json.num pf), some (Json.arr ds),
      some (Json.str tl), some (Json.num ac), some (Json.num pt) =>
    match detectionsFromJson ds, threatOfStr tl with
    | some detections, some threat => some ⟨tf, pf, detections, threat, ac, pt⟩
    | _, _ => none
  | _, _, _, _, _, _ => none

/-- Embeds `exportResults` of `video-upload/page.tsx` (lines 156-172): the
exported JSON document wraps the analysis in
`{filename, analysis, exportDate}`. -/
def exportResults (filename : String) (v : VideoAnalysis)
    (exportDate : String) : Json :=
  Json.obj
    [("filename", Json.str filename),
     ("analysis", v.toJson),
     ("exportDate", Json.str exportDate)]

/-- Modelled from the spec: the import path reads the exported document back
and extracts the `analysis` field. -/
def importResults (j : Json) : Option VideoAnalysis :=
  (j.lookup "analysis").bind VideoAnalysis.fromJson

/-! Helper lemmas. -/

/-- Two sorted permutations of each other whose timestamps are pairwise
distinct are equal as lists. -/
theorem sorted_perm_eq_of_nodup_keys {l₁ l₂ : List DetectionEvent}
    (hp : l₁.Perm l₂) (hs₁ : List.Sorted tsLe l₁) (hs₂ : List.Sorted tsLe l₂)
    (hnd : (l₁.map DetectionEvent.timestamp).Nodup) : l₁ = l₂ := by
  induction l₁ generalizing l₂ with
  | nil => exact hp.nil_eq
  | cons a t ih =>
    cases l₂ with
    | nil => exact absurd hp.symm (by simp)
    | cons b t₂ =>
      have hab : a = b := by
        have hbmem : b ∈ a :: t := hp.mem_iff.mpr (List.mem_cons_self b t₂)
        rcases List.mem_cons.mp hbmem with h | h
        · exact h.symm
        · have hamem : a ∈ b :: t₂ := hp.mem_iff.mp (List.mem_cons_self a t)
          rcases List.mem_cons.mp hamem with h' | h'
          · exact h'
          · have h1 : tsLe a b := (List.sorted_cons.mp hs₁).1 b h
            have h2 : tsLe b a := (List.sorted_cons.mp hs₂).1 a h'
            have heq : a.timestamp = b.timestamp := le_antisymm h1 h2
            exfalso
            exact (List.nodup_cons.mp hnd).1
              (heq ▸ List.mem_map_of_mem DetectionEvent.timestamp h)
      subst hab
      have ht : t = t₂ :=
        ih hp.cons_inv (List.sorted_cons.mp hs₁).2 (List.sorted_cons.mp hs₂).2
          (List.nodup_cons.mp hnd).2
      rw [ht]

/-- The first range emitted by the clustering pass descends from `cur`: same
`start`, `stop` at least as large. -/
theorem timeRangesGo_first (prev : ℚ) (cur : TimeRange)
    (rest : List DetectionEvent)
    (h1 : ∀ e ∈ rest, prev ≤ e.timestamp) (hs : List.Sorted tsLe rest)
    (h3 : cur.stop = prev + 10) :
    ∃ r rs, timeRangesGo prev cur rest = r :: rs
      ∧ r.start = cur.start ∧ cur.stop ≤ r.stop := by
  induction rest generalizing prev cur with
  | nil => exact ⟨cur, [], rfl, rfl, le_refl _⟩
  | cons d rest ih =>
    have hd : prev ≤ d.timestamp := h1 d (List.mem_cons_self _ _)
    by_cases hgap : d.timestamp - prev > 30
    · exact ⟨cur, timeRangesGo d.timestamp (newRange d) rest,
        by simp only [timeRangesGo, if_pos hgap], rfl, le_refl _⟩
    · obtain ⟨r, rs, heq, hst, hstop⟩ :=
        ih d.timestamp { cur with stop := d.timestamp + 10 }
          (List.sorted_cons.mp hs).1 (List.sorted_cons.mp hs).2 rfl
      refine ⟨r, rs, ?_, hst, ?_⟩
      · simp only [timeRangesGo, if_neg hgap]
        exact heq
      · calc cur.stop = prev + 10 := h3
          _ ≤ d.timestamp + 10 := by linarith
          _ ≤ r.stop := hstop

/-- Every range emitted by the clustering pass starts no earlier than the open
range `cur`. -/
theorem timeRangesGo_start_ge (prev : ℚ) (cur : TimeRange)
    (rest : List DetectionEvent)
    (h1 : ∀ e ∈ rest, prev ≤ e.timestamp) (hs : List.Sorted tsLe rest)
    (h4 : cur.start ≤ prev) :
    ∀ r ∈ timeRangesGo prev cur rest, cur.start ≤ r.start := by
  induction rest generalizing prev cur with
  | nil =>
    intro r hr
    simp only [timeRangesGo, List.mem_singleton] at hr
    rw [hr]
  | cons d rest ih =>
    have hd : prev ≤ d.timestamp := h1 d (List.mem_cons_self _ _)
    intro r hr
    by_cases hgap : d.timestamp - prev > 30
    · simp only [timeRangesGo, if_pos hgap, List.mem_cons] at hr
      rcases hr with rfl | hr
      · exact le_refl _
      · have := ih d.timestamp (newRange d)
          (List.sorted_cons.mp hs).1 (List.sorted_cons.mp hs).2 (le_refl _) r hr
        calc cur.start ≤ prev := h4
          _ ≤ d.timestamp := hd
          _ = (newRange d).start := rfl
          _ ≤ r.start := this
    · simp only [timeRangesGo, if_neg hgap] at hr
      exact ih d.timestamp { cur with stop := d.timestamp + 10 }
        (List.sorted_cons.mp hs).1 (List.sorted_cons.mp hs).2 (le_trans h4 hd) r hr

/-- Every range emitted by the clustering pass satisfies `start ≤ stop`. -/
theorem timeRangesGo_start_le_stop (prev : ℚ) (cur : TimeRange)
    (rest : List DetectionEvent)
    (h1 : ∀ e ∈ rest, prev ≤ e.timestamp) (hs : List.Sorted tsLe rest)
    (h3 : cur.stop = prev + 10) (h4 : cur.start ≤ prev) :
    ∀ r ∈ timeRangesGo prev cur rest, r.start ≤ r.stop := by
  induction rest generalizing prev cur with
  | nil =>
    intro r hr
    simp only [timeRangesGo, List.mem_singleton] at hr
    rw [hr, h3]
    linarith
  | cons d rest ih =>
    have hd : prev ≤ d.timestamp := h1 d (List.mem_cons_self _ _)
    intro r hr
    by_cases hgap : d.timestamp - prev > 30
    · simp only [timeRangesGo, if_pos hgap, List.mem_cons] at hr
      rcases hr with rfl | hr
      · rw [h3]; linarith
      · exact ih d.timestamp (newRange d)
          (List.sorted_cons.mp hs).1 (List.sorted_cons.mp hs).2 rfl (le_refl _) r hr
    · simp only [timeRangesGo, if_neg hgap] at hr
      exact ih d.timestamp { cur with stop := d.timestamp + 10 }
        (List.sorted_cons.mp hs).1 (List.sorted_cons.mp hs).2 rfl
        (le_trans h4 hd) r hr

/-- The ranges emitted by the clustering pass are pairwise separated: each
closes strictly before the next opens. -/
theorem timeRangesGo_pairwise (prev : ℚ) (cur : TimeRange)
    (rest : List DetectionEvent)
    (h1 : ∀ e ∈ rest, prev ≤ e.timestamp) (hs : List.Sorted tsLe rest)
    (h3 : cur.stop = prev + 10) :
    List.Pairwise (fun r₁ r₂ => r₁.stop < r₂.start)
      (timeRangesGo prev cur rest) := by
  induction rest generalizing prev cur with
  | nil => simp [timeRangesGo]
  | cons d rest ih =>
    have hd : prev ≤ d.timestamp := h1 d (List.mem_cons_self _ _)
    by_cases hgap : d.timestamp - prev > 30
    · simp only [timeRangesGo, if_pos hgap]
      rw [List.pairwise_cons]
      constructor
      · intro r hr
        have hge := timeRangesGo_start_ge d.timestamp (newRange d) rest
          (List.sorted_cons.mp hs).1 (List.sorted_cons.mp hs).2 (le_refl _) r hr
        have hnr : (newRange d).start = d.timestamp := rfl
        rw [h3]
        calc prev + 10 < d.timestamp := by linarith
          _ ≤ r.start := by rw [← hnr]; exact hge
      · exact ih d.timestamp (newRange d)
          (List.sorted_cons.mp hs).1 (List.sorted_cons.mp hs).2 rfl
    · simp only [timeRangesGo, if_neg hgap]
      exact ih d.timestamp { cur with stop := d.timestamp + 10 }
        (List.sorted_cons.mp hs).1 (List.sorted_cons.mp hs).2 rfl

/-- If an already-processed event `ei` lies in the open range `cur` and a
later event `ej` is less than 30 seconds after `ei`, no gap on the sorted
timeline can exceed 30 before `ej` is reached, so one produced range covers
both timestamps. -/
theorem timeRangesGo_cover (b : List DetectionEvent) (prev : ℚ)
    (cur : TimeRange) (c : List DetectionEvent) (ei ej : DetectionEvent)
    (hgap : ej.timestamp - ei.timestamp < 30)
    (h1 : ∀ e ∈ b ++ ej :: c, prev ≤ e.timestamp)
    (hs : List.Sorted tsLe (b ++ ej :: c))
    (h3 : cur.stop = prev + 10) (hstart : cur.start ≤ ei.timestamp)
    (hprev : ei.timestamp ≤ prev) :
    ∃ r ∈ timeRangesGo prev cur (b ++ ej :: c),
      r.start ≤ ei.timestamp ∧ ej.timestamp ≤ r.stop := by
  induction b generalizing prev cur with
  | nil =>
    have hng : ¬ (ej.timestamp - prev > 30) := by linarith
    obtain ⟨r, rs, heq, hst, hstop⟩ :=
      timeRangesGo_first ej.timestamp { cur with stop := ej.timestamp + 10 } c
        (List.sorted_cons.mp hs).1 (List.sorted_cons.mp hs).2 rfl
    refine ⟨r, ?_, ?_, ?_⟩
    · simp only [List.nil_append, timeRangesGo, if_neg hng]
      rw [heq]
      exact List.mem_cons_self _ _
    · rw [hst]
      exact hstart
    · calc ej.timestamp ≤ ej.timestamp + 10 := by linarith
        _ ≤ r.stop := hstop
  | cons e b ih =>
    have hse := List.sorted_cons.mp hs
    have hej : e.timestamp ≤ ej.timestamp := hse.1 ej (by simp)
    have hng : ¬ (e.timestamp - prev > 30) := by linarith
    obtain ⟨r, hr, hri, hrj⟩ :=
      ih e.timestamp { cur with stop := e.timestamp + 10 } hse.1 hse.2 rfl
        hstart (le_trans hprev (h1 e (by simp)))
    refine ⟨r, ?_, hri, hrj⟩
    simp only [List.cons_append, timeRangesGo, if_neg hng]
    exact hr

/-- Both `ei` and `ej` still lie ahead of the scan: once `ei` is reached it
joins (or starts) the open range, after which `timeRangesGo_cover` applies. -/
theorem timeRangesGo_cover₂ (a : List DetectionEvent) (prev : ℚ)
    (cur : TimeRange) (b c : List DetectionEvent) (ei ej : DetectionEvent)
    (hgap : ej.timestamp - ei.timestamp < 30)
    (h1 : ∀ e ∈ a ++ ei :: b ++ ej :: c, prev ≤ e.timestamp)
    (hs : List.Sorted tsLe (a ++ ei :: b ++ ej :: c))
    (h3 : cur.stop = prev + 10) (h4 : cur.start ≤ prev) :
    ∃ r ∈ timeRangesGo prev cur (a ++ ei :: b ++ ej :: c),
      r.start ≤ ei.timestamp ∧ ej.timestamp ≤ r.stop := by
  induction a generalizing prev cur with
  | nil =>
    have hsi := List.sorted_cons.mp hs
    have hdi : prev ≤ ei.timestamp := h1 ei (by simp)
    by_cases hg : ei.timestamp - prev > 30
    · obtain ⟨r, hr, hri, hrj⟩ :=
        timeRangesGo_cover b ei.timestamp (newRange ei) c ei ej hgap
          hsi.1 hsi.2 rfl (le_refl _) (le_refl _)
      refine ⟨r, ?_, hri, hrj⟩
      simp only [List.nil_append, timeRangesGo, if_pos hg]
      exact List.mem_cons_of_mem _ hr
    · obtain ⟨r, hr, hri, hrj⟩ :=
        timeRangesGo_cover b ei.timestamp
          { cur with stop := ei.timestamp + 10 } c ei ej hgap
          hsi.1 hsi.2 rfl (le_trans h4 hdi) (le_refl _)
      refine ⟨r, ?_, hri, hrj⟩
      simp only [List.nil_append, timeRangesGo, if_neg hg]
      exact hr
  | cons e a ih =>
    have hse := List.sorted_cons.mp hs
    have hde : prev ≤ e.timestamp := h1 e (by simp)
    by_cases hg : e.timestamp - prev > 30
    · obtain ⟨r, hr, hri, hrj⟩ :=
        ih e.timestamp (newRange e) hse.1 hse.2 rfl (le_refl _)
      refine ⟨r, ?_, hri, hrj⟩
      simp only [List.cons_append, timeRangesGo, if_pos hg]
      exact List.mem_cons_of_mem _ hr
    · obtain ⟨r, hr, hri, hrj⟩ :=
        ih e.timestamp { cur with stop := e.timestamp + 10 }
          hse.1 hse.2 rfl (le_trans h4 hde)
      refine ⟨r, ?_, hri, hrj⟩
      simp only [List.cons_append, timeRangesGo, if_neg hg]
      exact hr

/-- A draw `r` in `[0, 1)` scaled by a positive integer `m` floors into
`[0, m)`. -/
theorem floor_scale_bounds (r : ℚ) (m : ℤ) (hm : 0 < m) (h0 : 0 ≤ r)
    (h1 : r < 1) :
    0 ≤ ⌊r * (m : ℚ)⌋ ∧ ⌊r * (m : ℚ)⌋ < m := by
  have hmq : (0 : ℚ) < (m : ℚ) := by exact_mod_cast hm
  constructor
  · exact Int.floor_nonneg.mpr (mul_nonneg h0 (le_of_lt hmq))
  · rw [Int.floor_lt]
    calc r * (m : ℚ) < 1 * (m : ℚ) := mul_lt_mul_of_pos_right h1 hmq
      _ = (m : ℚ) := one_mul _

/-- In-bounds `getD` picks an element of the list. -/
theorem getD_mem_of_lt (l : List String) (i : ℕ) (d : String)
    (h : i < l.length) : l.getD i d ∈ l := by
  rw [List.getD_eq_getElem l d h]
  exact List.getElem_mem h

/-- Round trip of one detection event through the export wire format. -/
theorem fromJson_toJson (d : AnalysisResult) :
    AnalysisResult.fromJson d.toJson = some d := by
  simp [AnalysisResult.fromJson, AnalysisResult.toJson, Json.lookup, jsonLookup]

/-- Round trip of the detections array through the export wire format. -/
theorem detectionsFromJson_map (ds : List AnalysisResult) :
    detectionsFromJson (ds.map AnalysisResult.toJson) = some ds := by
  induction ds with
  | nil => rfl
  | cons d ds ih => simp [detectionsFromJson, fromJson_toJson, ih]

/-- Round trip of a threat level through its wire string. -/
theorem threatOfStr_toStr (t : Threat) : threatOfStr t.toStr = some t := by
  cases t <;> rfl

/-! Claim theorems. -/

/-- C1 (counterexample): the claim that every permutation of the input yields
an identical summary fails on timestamp ties.  Two events at timestamp 0 with
confidences 60 and 90 are permutations of each other, yet swapping them
changes the aggregation output: the stable sort keeps the input order of the
tie, so a different event triggers the incident and fixes its severity
(`Low` vs `High`), and the sorted `detections` list itself differs. -/
theorem C1_tie_counterexample :
    List.Perm
      [(⟨0, 60, true, "", none⟩ : DetectionEvent), ⟨0, 90, true, "", none⟩]
      [⟨0, 90, true, "", none⟩, ⟨0, 60, true, "", none⟩]
    ∧ simulateAggregate [⟨0, 60, true, "", none⟩, ⟨0, 90, true, "", none⟩]
        ≠ simulateAggregate [⟨0, 90, true, "", none⟩, ⟨0, 60, true, "", none⟩] :=
  ⟨List.Perm.swap _ _ _, by decide⟩

/-- C1 (amended): for inputs whose timestamps are pairwise distinct, the
aggregation of `simulateVideoAnalysis` (which sorts before clustering) maps
every permutation of the event sequence to an identical `AnalysisSummary`. -/
theorem C1_sort_independence_distinct (l l' : List DetectionEvent)
    (hp : l'.Perm l)
    (hnd : (l.map DetectionEvent.timestamp).Nodup) :
    simulateAggregate l' = simulateAggregate l := by
  have hsort : sortByTimestamp l' = sortByTimestamp l := by
    apply sorted_perm_eq_of_nodup_keys
    · exact (List.perm_insertionSort tsLe l').trans
        (hp.trans (List.perm_insertionSort tsLe l).symm)
    · exact List.sorted_insertionSort tsLe l'
    · exact List.sorted_insertionSort tsLe l
    · have hper : (sortByTimestamp l').Perm l :=
        (List.perm_insertionSort tsLe l').trans hp
      exact ((hper.map DetectionEvent.timestamp).nodup_iff).mpr hnd
  unfold simulateAggregate
  rw [hsort]

/-- C1 (witness): the amended theorem applied to a concrete two-event input
with distinct timestamps. -/
theorem C1_sort_independence_distinct_witness :
    List.Perm [(⟨20, 60, true, "", none⟩ : DetectionEvent), ⟨0, 90, true, "", none⟩]
      [⟨0, 90, true, "", none⟩, ⟨20, 60, true, "", none⟩]
    ∧ (List.map DetectionEvent.timestamp
        [(⟨0, 90, true, "", none⟩ : DetectionEvent), ⟨20, 60, true, "", none⟩]).Nodup
    ∧ simulateAggregate [⟨20, 60, true, "", none⟩, ⟨0, 90, true, "", none⟩]
        = simulateAggregate [⟨0, 90, true, "", none⟩, ⟨20, 60, true, "", none⟩] :=
  ⟨List.Perm.swap _ _ _, by decide,
    C1_sort_independence_distinct _ _ (List.Perm.swap _ _ _) (by decide)⟩

/-- C2 (code bug evaluation): on an empty event list the aggregation of
`simulateVideoAnalysis` has no explicit empty-case branch; it divides `0 / 0`
and produces `NaN` (modelled as `none`) for `averageConfidence` instead of
the `0` the spec requires.  The remaining fields do match the claimed values
(`Low`, `[]`, `0`, `0`) because every comparison against `NaN` is false; and
the `analyze-video` route, whose filter can actually produce an empty list,
reaches `0`/`Low` only through `||` fallbacks on upstream fields, not through
an explicit branch — its summary triple on a fully-filtered-out input is
`(0, 0, [])`. -/
theorem C2_empty_aggregation_nan :
    averageConfidence [] = none
    ∧ simulateAggregate [] =
        { detections := []
          overallThreatLevel := Threat.Low
          averageConfidence := none
          totalDetections := 0
          highConfidenceDetections := 0
          timeRanges := [] }
    ∧ analyzeVideoSummary [⟨0, 50, false, "", none⟩] = (0, 0, []) :=
  ⟨rfl, rfl, rfl⟩

/-- C3: the clustering pass on events at timestamps `[10, 15, 50, 52]`
produces exactly the two incidents `(10, 25)` and `(50, 62)` — the gap of 35
between 15 and 50 exceeds 30 — and the severity of each incident is fixed by
its triggering event's confidence only (`c1` and `c3`; the extending events'
confidences `c2`, `c4` never recompute it). -/
theorem C3_clustering_example (c1 c2 c3 c4 : ℚ) :
    ((simulateAggregate
        [⟨10, c1, true, "", none⟩, ⟨15, c2, true, "", none⟩,
         ⟨50, c3, true, "", none⟩, ⟨52, c4, true, "", none⟩]).timeRanges).map
      (fun r => (r.start, r.stop)) = [(10, 25), (50, 62)]
    ∧ ((simulateAggregate
        [⟨10, c1, true, "", none⟩, ⟨15, c2, true, "", none⟩,
         ⟨50, c3, true, "", none⟩, ⟨52, c4, true, "", none⟩]).timeRanges).map
      TimeRange.severity =
      [if c1 > 85 then Threat.High else if c1 > 70 then Threat.Medium else Threat.Low,
       if c3 > 85 then Threat.High else if c3 > 70 then Threat.Medium else Threat.Low] := by
  constructor <;>
    norm_num [simulateAggregate, sortByTimestamp, tsLe, timeRanges,
      timeRangesGo, newRange]

/-- C4: the threat level is `High` exactly above 85, `Medium` exactly on
`(70, 85]`, `Low` exactly at or below 70; both comparisons are strict, so the
boundary values 85 and 70 map to the lower band. -/
theorem C4_threat_thresholds (a : ℤ) :
    (overallThreatLevel (some a) = Threat.High ↔ 85 < a)
    ∧ (overallThreatLevel (some a) = Threat.Medium ↔ 70 < a ∧ a ≤ 85)
    ∧ (overallThreatLevel (some a) = Threat.Low ↔ a ≤ 70)
    ∧ overallThreatLevel (some 85) = Threat.Medium
    ∧ overallThreatLevel (some 70) = Threat.Low := by
  simp only [overallThreatLevel]
  refine ⟨?_, ?_, ?_, by norm_num, by norm_num⟩ <;>
    (split_ifs <;> simp_all <;> omega)

/-- C5: for every input, the time ranges produced by the sorting aggregation
satisfy the incident invariant: every range has `end ≥ start`, ranges are
pairwise non-overlapping and strictly ascending by `start`, and any two
events less than 30 seconds apart on the sorted timeline are covered by one
common range. -/
theorem C5_incident_invariants (l : List DetectionEvent) :
    (∀ r ∈ (simulateAggregate l).timeRanges, r.start ≤ r.stop)
    ∧ List.Pairwise (fun r₁ r₂ => r₁.stop < r₂.start ∧ r₁.start < r₂.start)
        (simulateAggregate l).timeRanges
    ∧ ∀ a b c ei ej, (simulateAggregate l).detections = a ++ ei :: b ++ ej :: c →
        ej.timestamp - ei.timestamp < 30 →
        ∃ r ∈ (simulateAggregate l).timeRanges,
          r.start ≤ ei.timestamp ∧ ej.timestamp ≤ r.stop := by
  have hsorted : List.Sorted tsLe (sortByTimestamp l) :=
    List.sorted_insertionSort tsLe l
  show (∀ r ∈ timeRanges (sortByTimestamp l), r.start ≤ r.stop)
    ∧ List.Pairwise (fun r₁ r₂ => r₁.stop < r₂.start ∧ r₁.start < r₂.start)
        (timeRanges (sortByTimestamp l))
    ∧ ∀ a b c ei ej, sortByTimestamp l = a ++ ei :: b ++ ej :: c →
        ej.timestamp - ei.timestamp < 30 →
        ∃ r ∈ timeRanges (sortByTimestamp l),
          r.start ≤ ei.timestamp ∧ ej.timestamp ≤ r.stop
  generalize sortByTimestamp l = s at hsorted ⊢
  cases s with
  | nil =>
    refine ⟨by simp [timeRanges], by simp [timeRanges], ?_⟩
    intro a b c ei ej hdec hgap
    exact absurd hdec (by simp)
  | cons d rest =>
    obtain ⟨h1, hs2⟩ := List.sorted_cons.mp hsorted
    refine ⟨?_, ?_, ?_⟩
    · exact timeRangesGo_start_le_stop d.timestamp (newRange d) rest h1 hs2 rfl
        (le_refl _)
    · have hpw := timeRangesGo_pairwise d.timestamp (newRange d) rest h1 hs2 rfl
      have hss := timeRangesGo_start_le_stop d.timestamp (newRange d) rest h1
        hs2 rfl (le_refl _)
      exact hpw.imp_of_mem (fun {r₁ r₂} hm₁ hm₂ hlt =>
        ⟨hlt, lt_of_le_of_lt (hss r₁ hm₁) hlt⟩)
    · intro a b c ei ej hdec hgap
      cases a with
      | nil =>
        simp only [List.nil_append] at hdec
        injection hdec with hd hrest
        subst hrest
        subst hd
        exact timeRangesGo_cover b d.timestamp (newRange d) c d ej hgap
          h1 hs2 rfl (le_refl _) (le_refl _)
      | cons e a' =>
        simp only [List.cons_append] at hdec
        injection hdec with hd hrest
        subst hrest
        subst hd
        exact timeRangesGo_cover₂ a' d.timestamp (newRange d) b c ei ej hgap
          h1 hs2 rfl (le_refl _)

/-- C5 (witness): on events at timestamps 0 and 20 — less than 30 apart — one
produced range covers both timestamps. -/
theorem C5_incident_invariants_witness :
    ∃ r ∈ (simulateAggregate
        [(⟨20, 60, true, "", none⟩ : DetectionEvent),
         ⟨0, 90, true, "", none⟩]).timeRanges,
      r.start ≤ 0 ∧ (20 : ℚ) ≤ r.stop := by
  have h := (C5_incident_invariants
    [(⟨20, 60, true, "", none⟩ : DetectionEvent), ⟨0, 90, true, "", none⟩]).2.2
    [] [] [] ⟨0, 90, true, "", none⟩ ⟨20, 60, true, "", none⟩ (by decide)
    (by norm_num)
  simpa using h

/-- C6: on any non-empty list of detected events with confidences in
`[0, 100]`, the computed average confidence is exactly the floor of the
arithmetic mean of the confidences, an integer in `[0, 100]`. -/
theorem C6_average_confidence_floor (l : List DetectionEvent) (hne : l ≠ [])
    (hconf : ∀ d ∈ l, 0 ≤ d.confidence ∧ d.confidence ≤ 100)
    (hdet : ∀ d ∈ l, d.detected = true) :
    ∃ a : ℤ, averageConfidence l = some a
      ∧ a = ⌊(l.map DetectionEvent.confidence).sum / (l.length : ℚ)⌋
      ∧ 0 ≤ a ∧ a ≤ 100 := by
  obtain ⟨d, t, rfl⟩ := List.exists_cons_of_ne_nil hne
  refine ⟨⌊((d :: t).map DetectionEvent.confidence).sum / ((d :: t).length : ℚ)⌋,
    rfl, rfl, ?_, ?_⟩
  · rw [Int.floor_nonneg]
    apply div_nonneg
    · apply List.sum_nonneg
      intro x hx
      obtain ⟨e, he, rfl⟩ := List.mem_map.mp hx
      exact (hconf e he).1
    · positivity
  · have hlen : (0 : ℚ) < ((d :: t).length : ℚ) := by
      exact_mod_cast t.length.succ_pos
    have hsum : ((d :: t).map DetectionEvent.confidence).sum
        ≤ 100 * ((d :: t).length : ℚ) := by
      have := List.sum_le_card_nsmul ((d :: t).map DetectionEvent.confidence) 100 ?_
      · simpa [nsmul_eq_mul, mul_comm] using this
      · intro x hx
        obtain ⟨e, he, rfl⟩ := List.mem_map.mp hx
        exact (hconf e he).2
    have hdiv : ((d :: t).map DetectionEvent.confidence).sum
        / ((d :: t).length : ℚ) ≤ 100 := by
      rw [div_le_iff₀ hlen]
      linarith [hsum]
    calc ⌊((d :: t).map DetectionEvent.confidence).sum / ((d :: t).length : ℚ)⌋
        ≤ ⌊(100 : ℚ)⌋ := Int.floor_le_floor hdiv
      _ = 100 := by norm_num

/-- C6 (witness): the theorem applied to a single detected event of
confidence 50. -/
theorem C6_average_confidence_floor_witness :
    ([(⟨0, 50, true, "", none⟩ : DetectionEvent)] ≠ [])
    ∧ (∀ d ∈ [(⟨0, 50, true, "", none⟩ : DetectionEvent)],
        0 ≤ d.confidence ∧ d.confidence ≤ 100)
    ∧ (∀ d ∈ [(⟨0, 50, true, "", none⟩ : DetectionEvent)], d.detected = true)
    ∧ ∃ a : ℤ,
        averageConfidence [(⟨0, 50, true, "", none⟩ : DetectionEvent)] = some a
        ∧ a = ⌊([(⟨0, 50, true, "", none⟩ : DetectionEvent)].map
              DetectionEvent.confidence).sum /
            ([(⟨0, 50, true, "", none⟩ : DetectionEvent)].length : ℚ)⌋
        ∧ 0 ≤ a ∧ a ≤ 100 :=
  ⟨by simp, by decide, by decide,
    C6_average_confidence_floor _ (by simp) (by decide) (by decide)⟩

/-- C7: the high-confidence count is the number of events with confidence
strictly above 80, and prepending an event of confidence exactly 80 leaves
the count unchanged. -/
theorem C7_high_confidence_strict (l : List DetectionEvent)
    (e : DetectionEvent) (h80 : e.confidence = 80) :
    highConfidenceDetections l = l.countP (fun d => decide (80 < d.confidence))
    ∧ highConfidenceDetections (e :: l) = highConfidenceDetections l := by
  constructor
  · simp [highConfidenceDetections, List.countP_eq_length_filter]
  · simp [highConfidenceDetections, List.filter_cons, h80]

/-- C7 (witness): the theorem applied to the one-event list of confidence 81
and an extra event of confidence exactly 80. -/
theorem C7_high_confidence_strict_witness :
    highConfidenceDetections [⟨0, 81, true, "", none⟩] =
        List.countP (fun d : DetectionEvent => decide (80 < d.confidence))
          [⟨0, 81, true, "", none⟩]
    ∧ highConfidenceDetections [⟨5, 80, true, "", none⟩, ⟨0, 81, true, "", none⟩]
        = highConfidenceDetections [⟨0, 81, true, "", none⟩] :=
  C7_high_confidence_strict [⟨0, 81, true, "", none⟩] ⟨5, 80, true, "", none⟩ rfl

/-- C8: for every random source drawing in `[0, 1)`, the synthesizer output
has `processedFrames = totalFrames`, `totalFrames` an integer in
`[1000, 4000)`, between 2 and 9 generated events, and every event has
`detected = true`, integer confidence in `[60, 100)`, timestamp in
`[0, 300)`, a description from the fixed catalog of eight, and a bounding box
with `x ∈ [0, 800)`, `y ∈ [0, 600)`, `width ∈ [100, 300)`,
`height ∈ [150, 450)`. -/
theorem C8_synthesizer_ranges (rand : ℕ → ℚ)
    (hr : ∀ n, 0 ≤ rand n ∧ rand n < 1) :
    (simulateVideoAnalysis rand).processedFrames
        = (simulateVideoAnalysis rand).totalFrames
    ∧ 1000 ≤ (simulateVideoAnalysis rand).totalFrames
    ∧ (simulateVideoAnalysis rand).totalFrames < 4000
    ∧ 2 ≤ (simulateVideoAnalysis rand).detections.length
    ∧ (simulateVideoAnalysis rand).detections.length < 10
    ∧ ∀ d ∈ (simulateVideoAnalysis rand).detections,
        d.detected = true
        ∧ (∃ c : ℤ, d.confidence = (c : ℚ) ∧ 60 ≤ c ∧ c < 100)
        ∧ 0 ≤ d.timestamp ∧ d.timestamp < 300
        ∧ d.description ∈ descriptions
        ∧ ∃ bb, d.boundingBox = some bb
            ∧ 0 ≤ bb.x ∧ bb.x < 800 ∧ 0 ≤ bb.y ∧ bb.y < 600
            ∧ 100 ≤ bb.width ∧ bb.width < 300
            ∧ 150 ≤ bb.height ∧ bb.height < 450 := by
  have htf := floor_scale_bounds (rand 0) 3000 (by norm_num) (hr 0).1 (hr 0).2
  have hnum := floor_scale_bounds (rand 2) 8 (by norm_num) (hr 2).1 (hr 2).2
  refine ⟨rfl, ?_, ?_, ?_, ?_, ?_⟩
  · show 1000 ≤ ⌊rand 0 * 3000⌋ + 1000
    have := htf.1
    push_cast at this ⊢
    omega
  · show ⌊rand 0 * 3000⌋ + 1000 < 4000
    have := htf.2
    push_cast at this ⊢
    omega
  · show 2 ≤ ((List.range (⌊rand 2 * 8⌋ + 2).toNat).map
      (fun i => mkDetection rand (3 + 7 * i))).length
    rw [List.length_map, List.length_range]
    have h1 := hnum.1
    have h2 := hnum.2
    push_cast at h1 h2
    omega
  · show ((List.range (⌊rand 2 * 8⌋ + 2).toNat).map
      (fun i => mkDetection rand (3 + 7 * i))).length < 10
    rw [List.length_map, List.length_range]
    have h1 := hnum.1
    have h2 := hnum.2
    push_cast at h1 h2
    omega
  · intro d hd
    obtain ⟨i, hi, rfl⟩ := List.mem_map.mp hd
    set base := 3 + 7 * i with hbase
    refine ⟨rfl, ?_, ?_, ?_, ?_, ?_⟩
    · have hc := floor_scale_bounds (rand (base + 1)) 40 (by norm_num)
        (hr (base + 1)).1 (hr (base + 1)).2
      push_cast at hc
      exact ⟨⌊rand (base + 1) * 40⌋ + 60, rfl, by omega, by omega⟩
    · exact mul_nonneg (hr base).1 (by norm_num)
    · calc rand base * 300 < 1 * 300 :=
          mul_lt_mul_of_pos_right (hr base).2 (by norm_num)
        _ = 300 := one_mul _
    · have hidx := floor_scale_bounds (rand (base + 2)) 8 (by norm_num)
        (hr (base + 2)).1 (hr (base + 2)).2
      apply getD_mem_of_lt
      show (⌊rand (base + 2) * ((descriptions.length : ℕ) : ℚ)⌋).toNat
        < descriptions.length
      have hlen : descriptions.length = 8 := rfl
      rw [hlen]
      have h1 := hidx.1
      have h2 := hidx.2
      push_cast at h1 h2 ⊢
      omega
    · have hx := floor_scale_bounds (rand (base + 3)) 800 (by norm_num)
        (hr (base + 3)).1 (hr (base + 3)).2
      have hy := floor_scale_bounds (rand (base + 4)) 600 (by norm_num)
        (hr (base + 4)).1 (hr (base + 4)).2
      have hw := floor_scale_bounds (rand (base + 5)) 200 (by norm_num)
        (hr (base + 5)).1 (hr (base + 5)).2
      have hh := floor_scale_bounds (rand (base + 6)) 300 (by norm_num)
        (hr (base + 6)).1 (hr (base + 6)).2
      push_cast at hx hy hw hh
      refine ⟨_, rfl, ?_, ?_, ?_, ?_, ?_, ?_, ?_, ?_⟩ <;> simp only [] <;> omega

/-- C8 (witness): the theorem applied to the all-zero random source. -/
theorem C8_synthesizer_ranges_witness :
    (∀ n : ℕ, 0 ≤ zeroDraws n ∧ zeroDraws n < 1)
    ∧ ((simulateVideoAnalysis zeroDraws).processedFrames
        = (simulateVideoAnalysis zeroDraws).totalFrames
    ∧ 1000 ≤ (simulateVideoAnalysis zeroDraws).totalFrames
    ∧ (simulateVideoAnalysis zeroDraws).totalFrames < 4000
    ∧ 2 ≤ (simulateVideoAnalysis zeroDraws).detections.length
    ∧ (simulateVideoAnalysis zeroDraws).detections.length < 10
    ∧ ∀ d ∈ (simulateVideoAnalysis zeroDraws).detections,
        d.detected = true
        ∧ (∃ c : ℤ, d.confidence = (c : ℚ) ∧ 60 ≤ c ∧ c < 100)
        ∧ 0 ≤ d.timestamp ∧ d.timestamp < 300
        ∧ d.description ∈ descriptions
        ∧ ∃ bb, d.boundingBox = some bb
            ∧ 0 ≤ bb.x ∧ bb.x < 800 ∧ 0 ≤ bb.y ∧ bb.y < 600
            ∧ 100 ≤ bb.width ∧ bb.width < 300
            ∧ 150 ≤ bb.height ∧ bb.height < 450) :=
  ⟨fun _ => ⟨le_refl 0, by norm_num [zeroDraws]⟩,
    C8_synthesizer_ranges zeroDraws
      (fun _ => ⟨le_refl 0, by norm_num [zeroDraws]⟩)⟩

/-- C9 (counterexample): the `analyze-video` POST handler's response to a
valid request while the backend is unreachable is HTTP 500 whose body carries
only the human-readable `error` message — none of the fallback payloads the
claim asserts (no alert list, no results, no synthesized detections, no
zeroed stats). -/
theorem C9_counterexample :
    analyzeVideoOfflineResponse.1 = 500
    ∧ (analyzeVideoOfflineResponse.2.lookup "error").isSome = true
    ∧ ¬ hasFallbackPayload analyzeVideoOfflineResponse.2 := by
  refine ⟨rfl, rfl, ?_⟩
  intro h
  rcases h with h | h | h | h <;>
    simp [analyzeVideoOfflineResponse, Json.lookup, jsonLookup] at h

/-- C9 (amended): while the backend is unreachable, `dashboard-stats` returns
HTTP 503 with the zeroed fallback stats and an `error` field, and the
`alerts` GET returns HTTP 500 with an empty alert list and an `error` field;
`analyze-video` and `detect-frame` return HTTP 500 with only a
human-readable `error` field and no fallback data payload.  Bad requests are
distinguished from offline failures by HTTP 400 and different error
messages. -/
theorem C9_offline_fallback_contract (msg : String) :
    (dashboardStatsOfflineResponse msg).1 = 503
    ∧ (dashboardStatsOfflineResponse msg).2.lookup "error"
        = some (Json.str ("Backend unavailable: " ++ msg))
    ∧ (dashboardStatsOfflineResponse msg).2.lookup "totalCameras"
        = some (Json.num 4)
    ∧ (dashboardStatsOfflineResponse msg).2.lookup "activeCameras"
        = some (Json.num 0)
    ∧ (alertsGetOfflineResponse msg).1 = 500
    ∧ (alertsGetOfflineResponse msg).2.lookup "alerts" = some (Json.arr [])
    ∧ (alertsGetOfflineResponse msg).2.lookup "error"
        = some (Json.str ("Failed to fetch alerts from backend: " ++ msg))
    ∧ analyzeVideoOfflineResponse.1 = 500
    ∧ (analyzeVideoOfflineResponse.2.lookup "error").isSome = true
    ∧ analyzeVideoOfflineResponse.2.lookup "results" = none
    ∧ analyzeVideoOfflineResponse.2.lookup "alerts" = none
    ∧ analyzeVideoOfflineResponse.2.lookup "detections" = none
    ∧ analyzeVideoOfflineResponse.2.lookup "totalCameras" = none
    ∧ (detectFrameOfflineResponse msg).1 = 500
    ∧ ((detectFrameOfflineResponse msg).2.lookup "error").isSome = true
    ∧ (detectFrameOfflineResponse msg).2.lookup "results" = none
    ∧ (detectFrameOfflineResponse msg).2.lookup "alerts" = none
    ∧ analyzeVideoBadRequestResponse.1 = 400
    ∧ analyzeVideoBadRequestResponse.2.lookup "error"
        = some (Json.str "No video file provided")
    ∧ detectFrameBadRequestResponse.1 = 400
    ∧ detectFrameBadRequestResponse.2.lookup "error"
        = some (Json.str "No image data provided") := by
  refine ⟨rfl, ?_, ?_, ?_, rfl, ?_, ?_, rfl, rfl, rfl, rfl, rfl, rfl, rfl,
    ?_, rfl, rfl, rfl, ?_, rfl, ?_⟩
  · simp [dashboardStatsOfflineResponse, Json.lookup, jsonLookup]
  · simp [dashboardStatsOfflineResponse, Json.lookup, jsonLookup]
  · simp [dashboardStatsOfflineResponse, Json.lookup, jsonLookup]
  · simp [alertsGetOfflineResponse, Json.lookup, jsonLookup]
  · simp [alertsGetOfflineResponse, Json.lookup, jsonLookup]
  · simp [detectFrameOfflineResponse, Json.lookup, jsonLookup]
  · simp [analyzeVideoBadRequestResponse, Json.lookup, jsonLookup]
  · simp [detectFrameBadRequestResponse, Json.lookup, jsonLookup]

/-- C10: serializing a `VideoAnalysis` through the export path of the upload
page and deserializing the resulting JSON yields the original value exactly —
every field and the order of the detection events are preserved. -/
theorem C10_export_import_roundtrip (filename : String) (v : VideoAnalysis)
    (exportDate : String) :
    importResults (exportResults filename v exportDate) = some v := by
  simp [importResults, exportResults, Json.lookup, jsonLookup,
    VideoAnalysis.fromJson, VideoAnalysis.toJson,
    detectionsFromJson_map, threatOfStr_toStr]

end TheftDetection
